import Mathlib

/-!
Shallow embedding of the go-ratelimit library (package `ratelimit`).

Conventions of the embedding:
* Go `time.Time` and `time.Duration` are both modelled as `Int`, counting
  nanoseconds (absolute nanoseconds since the Unix epoch for instants).
* Go `float64` arithmetic in the metered-delay computation is modelled by
  exact rational arithmetic over `ℚ`; the conversion `time.Duration(f)` of a
  `float64` back to an integer duration truncates toward zero, modelled by
  `ratTrunc`.  The one place where exact rationals and IEEE floats genuinely
  part ways — division by a zero `limit`, which yields `+Inf` in Go so that
  neither low-quota branch fires — is mirrored by an explicit guard.
* Go integer division (`/` on integers and on `time.Duration`) truncates
  toward zero and is modelled by `Int.tdiv`; `time.Time.UnixMicro` floors
  the nanosecond timestamp to microseconds and is modelled by `Int.ediv`.
* Fallible operations return an explicit result value rather than a Go
  `error`.
-/

namespace RateLimit

/-- Truncation of a rational toward zero, the semantics of Go's conversion
from `float64` to an integer type such as `time.Duration`. -/
def ratTrunc (x : ℚ) : Int :=
  if x < 0 then ⌈x⌉ else ⌊x⌋

/-- Source constant `lowThreshold = 0.05`: quota is running low when 5% of
operations remain. -/
def lowThreshold : ℚ := 5 / 100

/-- Source constant `lowLimit = 0.005`: stop making requests when only ½% of
operations remain. -/
def lowLimit : ℚ := 5 / 1000

/-- Source constant `defaultBackoffPeriod = time.Minute * 3`, in
nanoseconds. -/
def defaultBackoffPeriod : Int := 180 * 1000000000

/-- Source function `backoffDuration`: the backoff duration for a period
and error count, `p * n * n`. -/
def backoffDuration (p : Int) (n : Int) : Int := p * n * n

/-- Rate limiting modes, source type `Mode` (`Meter` is the zero value). -/
inductive Mode where
  | Meter
  | Burst
deriving DecidableEq

/-- Source struct `limiter`: the basic mechanics of a rate limiter.  The
`sync.Mutex` only serialises access and carries no state; it is dropped.
`target` is a Go `float64`, modelled as `ℚ`. -/
structure Limiter where
  limit : Int
  remaining : Int
  reset : Int
  backoff : Option Int := none
  backoffPeriod : Int := defaultBackoffPeriod
  errcount : Int := 0
  mode : Mode := Mode.Meter
  target : ℚ := 0
  maxMeter : Int := 0
deriving DecidableEq

/-- Source function `newLimiter`. -/
def newLimiter (q r : Int) (e : Int) : Limiter :=
  { limit := q, remaining := r, reset := e, backoffPeriod := defaultBackoffPeriod }

/-- Snapshot type, source struct `State`. -/
structure State where
  Limit : Int
  Remaining : Int
  Reset : Int
deriving DecidableEq

/-- Source method `limiter.State`. -/
def Limiter.State (l : Limiter) : State :=
  { Limit := l.limit, Remaining := l.remaining, Reset := l.reset }

/-- Source method `limiter.Update`: update remaining budget to the provided
state (the Go method always returns a nil error). -/
def Limiter.Update (l : Limiter) (lim rem : Int) (rst : Int) : Limiter :=
  { l with limit := lim, remaining := rem, reset := rst }

/-- Source method `limiter.Dec`: decrement remaining budget if we have
any. -/
def Limiter.Dec (l : Limiter) : Limiter :=
  if 0 < l.remaining then { l with remaining := l.remaining - 1 } else l

/-- Source method `limiter.Backoff`: back off incrementally, relative to the
provided time; returns the deadline and the new state. -/
def Limiter.Backoff (l : Limiter) (rel : Int) : Int × Limiter :=
  let until' := rel + backoffDuration l.backoffPeriod (l.errcount + 1)
  (until', { l with errcount := l.errcount + 1, backoff := some until' })

/-- Source method `limiter.BackoffUntil`: back off until the provided
time. -/
def Limiter.BackoffUntil (l : Limiter) (until' : Int) : Limiter :=
  { l with backoff := some until', errcount := 1 }

/-- Source method `limiter.InvalidateBackoff`. -/
def Limiter.InvalidateBackoff (l : Limiter) : Limiter :=
  { l with errcount := 0, backoff := none }

/-- Clamp of the reset window in `limiter.Delay`: `r = l.reset.Sub(rel)`
followed by `if r < 0 { r = 0 }` (can't have a negative reset window). -/
def rclamp (x : Int) : Int :=
  if x < 0 then 0 else x

/-- The `Meter`-mode block of source method `limiter.Delay`: spread requests
over the rest of the rate-limit window.  `q` is the limit captured at the
top of `Delay`, `e` the remaining budget before the decrement, `r` the
clamped time to the window reset; `target` and `maxMeter` are read from the
limiter.  In Go the low-quota proportion `p` is a `float64` quotient, which
is `+Inf` when `q = 0` (`e` is positive on entry) so that neither low-quota
branch applies; that is mirrored by the explicit guard. -/
def meterAmount (q e r : Int) (target : ℚ) (maxMeter : Int) : Int :=
  let d0 := r.tdiv e
  let d1 := if 0 < target then ratTrunc ((d0 : ℚ) * (1 / target)) else d0
  -- back off aggressively as we get close to our limit
  let d2 :=
    if q = 0 then d1
    else if ((e : ℚ) / (q : ℚ)) < lowLimit then r
    else if ((e : ℚ) / (q : ℚ)) < lowThreshold then
      ratTrunc ((d1 : ℚ) * (1 / ((e : ℚ) / (q : ℚ)) / 2))
    else d1
  if 0 < maxMeter ∧ maxMeter < d2 then maxMeter else d2

/-- The body of source method `limiter.Delay` below the backoff check: `b`
was nil, so we determine if we have budget left, consume a request if so,
and otherwise delay until the window reset; in `Meter` mode the delay is
spread over the rest of the window.  `m` and `q` are the mode and limit
captured at the top of `Delay`; `e` is the remaining budget before the
decrement.  The returned state reflects the quota consumption and the
cleared error count. -/
def Limiter.delayQuota (l : Limiter) (rel : Int) (m : Mode) (q : Int) : Int × Limiter :=
  let r := rclamp (l.reset - rel)
  let e := l.remaining
  let d : Int := if 0 < l.remaining then 0 else r
  ( if 0 < d then d
    else if m = Mode.Meter ∧ 0 < e then meterAmount q e r l.target l.maxMeter
    else 0,
    { l with
      remaining := if 0 < l.remaining then l.remaining - 1 else l.remaining,
      errcount := 0 } )

/-- Source method `limiter.Delay`: first check for an existing backoff
period (`rel.After(*v)` is the strict comparison `v < rel`); if the backoff
is still active the delay is until it ends and the state is untouched,
otherwise the backoff is cleared and the quota path runs. -/
def Limiter.Delay (l : Limiter) (rel : Int) : Int × Limiter :=
  match l.backoff with
  | some v =>
      if v < rel then
        Limiter.delayQuota { l with backoff := none } rel l.mode l.limit
      else
        (v - rel, l)
  | none => Limiter.delayQuota l rel l.mode l.limit

/-- Iterate `Delay` over a list of reference times, collecting the returned
delays and threading the state. -/
def delayRun (l : Limiter) : List Int → List Int × Limiter
  | [] => ([], l)
  | t :: ts =>
      let r := l.Delay t
      let rest := delayRun r.2 ts
      (r.1 :: rest.1, rest.2)

/-- Source struct `Linear` (with its embedded `Config`): a rate limiter
which spreads out requests evenly over the window period.  `base` is the
configured start instant and `delay = Window / Events` by Go duration
division (`NewLinear`). -/
structure Linear where
  Start : Int
  Window : Int
  Events : Int
  base : Int
  delay : Int

/-- Source function `NewLinear`, for a configuration with a non-zero start
instant (when the start is unset Go substitutes the wall clock, which has no
counterpart in the embedding). -/
def NewLinear (start window events : Int) : Linear :=
  { Start := start, Window := window, Events := events
    base := start, delay := window.tdiv events }

/-- Source method `Linear.State`: `nwin = (rel − base) / Window` by Go
duration division, and the remaining estimate is the `float64` expression
`(1 − curr/Window) × Events` converted back to `int`, i.e. truncated toward
zero. -/
def Linear.State (l : Linear) (rel : Int) : State :=
  let nwin := (rel - l.base).tdiv l.Window
  let start := l.base + nwin * l.Window
  let reset := start + l.Window
  let curr := rel - start
  { Limit := l.Events
    Remaining := ratTrunc ((1 - (curr : ℚ) / (l.Window : ℚ)) * (l.Events : ℚ))
    Reset := reset }

/-- Source method `Linear.Next`: `dm = int64(delay / 1000)` is the slot
width in microseconds, `rel.UnixMicro()` floors the instant to microseconds,
the quotient is Go's truncated `int64` division, and the resulting
microsecond instant is converted back to nanoseconds. -/
def Linear.Next (l : Linear) (rel : Int) : Int :=
  let dm := l.delay.tdiv 1000
  (((rel.ediv 1000).tdiv dm) * dm + dm) * 1000

/-- Attribute bags (source type `Attrs`), an association of header names to
value lists as found in `http.Header`. -/
def Attrs := List (String × List String)

/-- Byte validity per Go's `validHeaderFieldByte` (`isTokenTable`): digits,
letters, and the bytes `! # $ % & ' * + - . ^ _` (96) `| ~`. -/
def validHeaderChar (c : Char) : Bool :=
  (48 ≤ c.toNat && c.toNat ≤ 57) || (65 ≤ c.toNat && c.toNat ≤ 90) ||
  (97 ≤ c.toNat && c.toNat ≤ 122) ||
  [33, 35, 36, 37, 38, 39, 42, 43, 45, 46, 94, 95, 96, 124, 126].contains c.toNat

/-- Uppercase an ASCII letter, as Go's canonicalisation does byte-wise. -/
def asciiUpper (c : Char) : Char :=
  if 97 ≤ c.toNat && c.toNat ≤ 122 then Char.ofNat (c.toNat - 32) else c

/-- Lowercase an ASCII letter, as Go's canonicalisation does byte-wise. -/
def asciiLower (c : Char) : Char :=
  if 65 ≤ c.toNat && c.toNat ≤ 90 then Char.ofNat (c.toNat + 32) else c

/-- Canonicalise a list of header-name characters: uppercase at the start
and after each hyphen (byte 45), lowercase elsewhere. -/
def canonChars : Bool → List Char → List Char
  | _, [] => []
  | up, c :: cs => (if up then asciiUpper c else asciiLower c) :: canonChars (c.toNat = 45) cs

/-- Go's `textproto.CanonicalMIMEHeaderKey`: returns the input unchanged if
any byte is invalid, otherwise canonicalises the case. -/
def canonicalKey (s : String) : String :=
  if s.data.all validHeaderChar then String.mk (canonChars true s.data) else s

/-- Go's `http.Header.Get` on an attribute bag: look up the canonical form
of the key and return the first value, or the empty string. -/
def attrGet (a : Attrs) (k : String) : String :=
  match a.find? (fun p => p.1 == canonicalKey k) with
  | some (_, v :: _) => v
  | _ => ""

/-- Source function `findAttr`: the first alternative name whose value is
non-empty, with that value; Go signals absence with a pair of empty
strings, modelled as `none`. -/
def findAttr (a : Attrs) : List String → Option (String × String)
  | [] => none
  | n :: alts => if attrGet a n = "" then findAttr a alts else some (n, attrGet a n)

/-- Go's `strconv.Atoi`: an optional sign, one or more decimal digits,
nothing else, and the result must fit in an `int64`. -/
def parseAtoi (s : String) : Option Int :=
  let parseDigits (neg : Bool) (ds : List Char) : Option Int :=
    if ds = [] then none
    else if ds.all (fun d => 48 ≤ d.toNat && d.toNat ≤ 57) then
      let v : Int := ds.foldl (fun a d => a * 10 + ((d.toNat : Int) - 48)) 0
      let i : Int := if neg then -v else v
      if -(2 ^ 63) ≤ i ∧ i ≤ 2 ^ 63 - 1 then some i else none
    else none
  match s.data with
  | [] => none
  | c :: rest =>
      if c.toNat = 45 then parseDigits true rest
      else if c.toNat = 43 then parseDigits false rest
      else parseDigits false (c :: rest)

/-- Durationers (source values `Seconds` and `Milliseconds`): policies for
decoding numeric header values as durations or instants. -/
inductive Durationer where
  | seconds
  | milliseconds
deriving DecidableEq

/-- Source methods `seconds.Duration` and `milliseconds.Duration`, in
nanoseconds. -/
def Durationer.duration : Durationer → Int → Int
  | .seconds, v => v * 1000000000
  | .milliseconds, v => v * 1000000

/-- Source methods `seconds.Time` and `milliseconds.Time`: the decoded
absolute instant in nanoseconds (`time.Unix(v, 0)` and
`time.Unix(v/1000, v%1000*1e6)` respectively, both exactly a scaling). -/
def Durationer.timeOf : Durationer → Int → Int
  | .seconds, v => v * 1000000000
  | .milliseconds, v => v * 1000000

/-- Source struct `headers`: the header-driven limiter, a core `limiter`
plus a durationer. -/
structure Headers where
  impl : Limiter
  dur : Durationer

/-- Result of `headers.update`, distinguishing the Go error values: nil,
the `RetryError` carrying a deadline, the invalid-header error naming the
offending header and value, and the three missing-header errors (all
wrapping `ErrMissingHeaders`). -/
inductive UpdateResult where
  | ok
  | retryAfter (deadline : Int)
  | invalidHeader (name value : String)
  | missingLimit
  | missingRemaining
  | missingReset
deriving DecidableEq

/-- Alias list for the retry-after lookup in `headers.update`. -/
def retryAliases : List String := ["X-Retry-After", "Retry-After"]

/-- Alias list for the quota limit lookup in `headers.update`. -/
def limitAliases : List String := ["X-RateLimit-Limit", "ratelimit-limit"]

/-- Alias list for the remaining quota lookup in `headers.update`. -/
def remainingAliases : List String := ["X-RateLimit-Remaining", "ratelimit-remaining"]

/-- Alias list for the window reset lookup in `headers.update`. -/
def resetAliases : List String := ["X-RateLimit-Reset", "ratelimit-reset"]

/-- Source method `headers.update` (the body of `headers.Update` once
attributes are present).  `now` stands for the `time.Now()` the Go code
reads when arming a retry-after backoff; the `rel` parameter of the Go
method is unused there.  Retry-after aliases are consulted first and
short-circuit; then limit, remaining and reset are each required and
parsed in order; only when all three parse is the quota state
overwritten. -/
def Headers.update (l : Headers) (now : Int) (attrs : Attrs) : UpdateResult × Headers :=
  match findAttr attrs retryAliases with
  | some (n, v) =>
      match parseAtoi v with
      | none => (.invalidHeader n v, l)
      | some x =>
          let w := now + l.dur.duration x
          (.retryAfter w, { l with impl := l.impl.BackoffUntil w })
  | none =>
  match findAttr attrs limitAliases with
  | none => (.missingLimit, l)
  | some (n, v) =>
  match parseAtoi v with
  | none => (.invalidHeader n v, l)
  | some lim =>
  match findAttr attrs remainingAliases with
  | none => (.missingRemaining, l)
  | some (n, v) =>
  match parseAtoi v with
  | none => (.invalidHeader n v, l)
  | some rem =>
  match findAttr attrs resetAliases with
  | none => (.missingReset, l)
  | some (n, v) =>
  match parseAtoi v with
  | none => (.invalidHeader n v, l)
  | some x => (.ok, { l with impl := l.impl.Update lim rem (l.dur.timeOf x) })

/-- Delay formula transcribed from the specification's description of
`Meter` mode: `base = (reset − now) / remaining_before_decrement`, scaled by
`1/target` when a target fraction is configured, then the low-quota penalty
on `p = remaining_before_decrement / limit` (`p < 0.005` forces
`delay = reset − now`; `0.005 ≤ p < 0.05` scales the delay by `1/p/2`), and
finally the clamp to `maxDelay` when configured and exceeded. -/
def meterDelaySpec (limit remaining reset now : Int) (target : ℚ) (maxDelay : Int) : Int :=
  let base := (reset - now).tdiv remaining
  let scaled := if 0 < target then ratTrunc ((base : ℚ) * (1 / target)) else base
  let p : ℚ := (remaining : ℚ) / (limit : ℚ)
  let pen :=
    if p < lowLimit then reset - now
    else if p < lowThreshold then ratTrunc ((scaled : ℚ) * (1 / p / 2))
    else scaled
  if 0 < maxDelay ∧ maxDelay < pen then maxDelay else pen

/-- Delay formula transcribed from the amended reading of the `Meter`-mode
specification: identical to `meterDelaySpec` except that the window term is
clamped at zero, `max(0, reset − now)`, both in the base computation and in
the low-limit forced delay — which is what the code's `r < 0 ⇒ r = 0` clamp
produces for calls past the window reset. -/
def meterDelaySpecClamped (limit remaining reset now : Int) (target : ℚ) (maxDelay : Int) : Int :=
  let base := (rclamp (reset - now)).tdiv remaining
  let scaled := if 0 < target then ratTrunc ((base : ℚ) * (1 / target)) else base
  let p : ℚ := (remaining : ℚ) / (limit : ℚ)
  let pen :=
    if p < lowLimit then rclamp (reset - now)
    else if p < lowThreshold then ratTrunc ((scaled : ℚ) * (1 / p / 2))
    else scaled
  if 0 < maxDelay ∧ maxDelay < pen then maxDelay else pen

/-- Remaining estimate transcribed from the amended reading of the
specification of `Linear.State`: within the `window`-sized bucket anchored
at `base` that the truncated division selects, the estimate is
`(1 − elapsedInBucket/window) × events` truncated toward zero (the Go `int`
conversion), not rounded. -/
def linearRemainingSpec (base window events rel : Int) : Int :=
  let bucket := (rel - base).tdiv window
  let bucketStart := base + bucket * window
  let elapsed := rel - bucketStart
  ratTrunc ((1 - (elapsed : ℚ) / (window : ℚ)) * (events : ℚ))

theorem ratTrunc_of_nonneg {x : ℚ} (hx : 0 ≤ x) : ratTrunc x = ⌊x⌋ := by
  unfold ratTrunc
  rw [if_neg (not_lt.mpr hx)]

theorem ratTrunc_nonneg {x : ℚ} (hx : 0 ≤ x) : 0 ≤ ratTrunc x := by
  rw [ratTrunc_of_nonneg hx]
  exact Int.floor_nonneg.mpr hx

theorem ratTrunc_mono_of_nonneg {x y : ℚ} (hx : 0 ≤ x) (hxy : x ≤ y) :
    ratTrunc x ≤ ratTrunc y := by
  rw [ratTrunc_of_nonneg hx, ratTrunc_of_nonneg (le_trans hx hxy)]
  exact Int.floor_mono hxy

theorem ratTrunc_intCast (n : Int) : ratTrunc (n : ℚ) = n := by
  unfold ratTrunc
  split
  · exact Int.ceil_intCast n
  · exact Int.floor_intCast n

theorem rclamp_nonneg (x : Int) : 0 ≤ rclamp x := by
  unfold rclamp; split <;> omega

theorem rclamp_mono {x y : Int} (h : x ≤ y) : rclamp x ≤ rclamp y := by
  unfold rclamp; split <;> split <;> omega

theorem rclamp_of_nonneg {x : Int} (h : 0 ≤ x) : rclamp x = x := by
  unfold rclamp; split <;> omega

theorem rclamp_eq_max (x : Int) : rclamp x = max 0 x := by
  unfold rclamp; split <;> omega

theorem delayQuota_snd (l : Limiter) (rel : Int) (m : Mode) (q : Int) :
    (Limiter.delayQuota l rel m q).2 =
      { l with
        remaining := if 0 < l.remaining then l.remaining - 1 else l.remaining,
        errcount := 0 } := rfl

theorem delayQuota_fst_pos (l : Limiter) (rel : Int) (m : Mode) (q : Int)
    (hrem : 0 < l.remaining) :
    (Limiter.delayQuota l rel m q).1 =
      if m = Mode.Meter then
        meterAmount q l.remaining (rclamp (l.reset - rel)) l.target l.maxMeter
      else 0 := by
  unfold Limiter.delayQuota
  simp only [if_pos hrem, lt_irrefl, if_false]
  by_cases hm : m = Mode.Meter
  · simp [hm, hrem]
  · simp [hm]

theorem delayQuota_fst_zero (l : Limiter) (rel : Int) (m : Mode) (q : Int)
    (hrem : ¬0 < l.remaining) :
    (Limiter.delayQuota l rel m q).1 = rclamp (l.reset - rel) := by
  unfold Limiter.delayQuota
  simp only [if_neg hrem]
  have h0 : 0 ≤ rclamp (l.reset - rel) := rclamp_nonneg _
  by_cases hr : 0 < rclamp (l.reset - rel)
  · simp [hr]
  · have : rclamp (l.reset - rel) = 0 := by omega
    simp [this, hrem]

theorem delay_of_no_backoff (l : Limiter) (rel : Int) (hb : l.backoff = none) :
    l.Delay rel = Limiter.delayQuota l rel l.mode l.limit := by
  unfold Limiter.Delay
  rw [hb]

theorem delay_exhausted (l : Limiter) (now : Int) (hb : l.backoff = none)
    (hr : l.remaining = 0) :
    (l.Delay now).1 = max 0 (l.reset - now) ∧ (l.Delay now).2 = { l with errcount := 0 } := by
  rw [delay_of_no_backoff l now hb]
  constructor
  · rw [delayQuota_fst_zero l now l.mode l.limit (by omega), rclamp_eq_max]
  · rw [delayQuota_snd]
    simp [hr]

theorem delayRun_state (l : Limiter) (ts : List Int) (hb : l.backoff = none)
    (hr : 0 ≤ l.remaining) :
    (delayRun l ts).2.remaining = max 0 (l.remaining - ts.length)
    ∧ (delayRun l ts).2.backoff = none
    ∧ (delayRun l ts).2.reset = l.reset
    ∧ (delayRun l ts).2.limit = l.limit := by
  induction ts generalizing l with
  | nil =>
      refine ⟨?_, hb, rfl, rfl⟩
      simp only [delayRun, List.length_nil, Nat.cast_zero]
      omega
  | cons t ts ih =>
      have hstep : (l.Delay t).2 =
          { l with
            remaining := if 0 < l.remaining then l.remaining - 1 else l.remaining,
            errcount := 0 } := by
        rw [delay_of_no_backoff l t hb, delayQuota_snd]
      have h := ih (l.Delay t).2 (by rw [hstep]; exact hb) (by rw [hstep]; dsimp only; omega)
      simp only [delayRun]
      refine ⟨?_, h.2.1, ?_, ?_⟩
      · rw [h.1, hstep]
        simp only [List.length_cons]
        split <;> push_cast <;> omega
      · rw [h.2.2.1, hstep]
      · rw [h.2.2.2, hstep]

theorem clamp_mono (x a b : Int) (hab : a ≤ b) :
    (if 0 < x ∧ x < a then x else a) ≤ (if 0 < x ∧ x < b then x else b) := by
  split <;> split <;> omega

theorem tdiv_antitone_of_nonneg {a b c : Int} (hc : 0 < c) (ha : 0 ≤ a) (hab : a ≤ b) :
    a.tdiv c ≤ b.tdiv c := by
  rw [Int.tdiv_eq_ediv ha hc.le, Int.tdiv_eq_ediv (le_trans ha hab) hc.le]
  exact Int.ediv_le_ediv hc hab

theorem meterAmount_mono (q e : Int) (target : ℚ) (maxMeter : Int) {r1 r2 : Int}
    (he : 0 < e) (hr2 : 0 ≤ r2) (hr : r2 ≤ r1) :
    meterAmount q e r2 target maxMeter ≤ meterAmount q e r1 target maxMeter := by
  unfold meterAmount
  have hd0 : r2.tdiv e ≤ r1.tdiv e := tdiv_antitone_of_nonneg he hr2 hr
  have hd0n : 0 ≤ r2.tdiv e := Int.tdiv_nonneg hr2 he.le
  set d02 := r2.tdiv e with hdef2
  set d01 := r1.tdiv e with hdef1
  have hd1 :
      (if 0 < target then ratTrunc ((d02 : ℚ) * (1 / target)) else d02) ≤
      (if 0 < target then ratTrunc ((d01 : ℚ) * (1 / target)) else d01) := by
    split
    · next ht =>
        have hc : (0 : ℚ) ≤ 1 / target := by positivity
        exact ratTrunc_mono_of_nonneg (by positivity)
          (mul_le_mul_of_nonneg_right (by exact_mod_cast hd0) hc)
    · exact hd0
  have hd1n :
      0 ≤ (if 0 < target then ratTrunc ((d02 : ℚ) * (1 / target)) else d02) := by
    split
    · next ht => exact ratTrunc_nonneg (by positivity)
    · exact hd0n
  set e12 := if 0 < target then ratTrunc ((d02 : ℚ) * (1 / target)) else d02 with he2
  set e11 := if 0 < target then ratTrunc ((d01 : ℚ) * (1 / target)) else d01 with he1
  have hd2 :
      (if q = 0 then e12
       else if ((e : ℚ) / (q : ℚ)) < lowLimit then r2
       else if ((e : ℚ) / (q : ℚ)) < lowThreshold then
         ratTrunc ((e12 : ℚ) * (1 / ((e : ℚ) / (q : ℚ)) / 2))
       else e12) ≤
      (if q = 0 then e11
       else if ((e : ℚ) / (q : ℚ)) < lowLimit then r1
       else if ((e : ℚ) / (q : ℚ)) < lowThreshold then
         ratTrunc ((e11 : ℚ) * (1 / ((e : ℚ) / (q : ℚ)) / 2))
       else e11) := by
    split
    · exact hd1
    · split
      · exact hr
      · split
        · next hq0 hp1 hp2 =>
            have hp : (0 : ℚ) < (e : ℚ) / (q : ℚ) :=
              lt_of_lt_of_le (by norm_num [lowLimit]) (not_lt.mp hp1)
            have hc : (0 : ℚ) ≤ 1 / ((e : ℚ) / (q : ℚ)) / 2 := by positivity
            exact ratTrunc_mono_of_nonneg (by positivity)
              (mul_le_mul_of_nonneg_right (by exact_mod_cast hd1) hc)
        · exact hd1
  exact clamp_mono maxMeter _ _ hd2

theorem delayQuota_fst_antitone (l : Limiter) (m : Mode) (q : Int) {t1 t2 : Int}
    (h12 : t1 ≤ t2) :
    (Limiter.delayQuota l t2 m q).1 ≤ (Limiter.delayQuota l t1 m q).1 := by
  have hr2 : 0 ≤ rclamp (l.reset - t2) := rclamp_nonneg _
  have hrr : rclamp (l.reset - t2) ≤ rclamp (l.reset - t1) := rclamp_mono (by omega)
  by_cases hrem : 0 < l.remaining
  · rw [delayQuota_fst_pos l t2 m q hrem, delayQuota_fst_pos l t1 m q hrem]
    split
    · exact meterAmount_mono q l.remaining l.target l.maxMeter hrem hr2 hrr
    · exact le_refl 0
  · rw [delayQuota_fst_zero l t2 m q hrem, delayQuota_fst_zero l t1 m q hrem]
    exact hrr

/-- Claim C9: for all integers `lim` and `rem` and every instant `rst`,
`Update(lim, rem, rst)` stores the three values verbatim with no validation
or clamping, and the next `State()` returns exactly those values — including
`rem` negative or `rem > lim`. -/
theorem update_verbatim (l : Limiter) (lim rem : Int) (rst : Int) :
    (l.Update lim rem rst).State =
      { Limit := lim, Remaining := rem, Reset := rst } := rfl

/-- Claim C2: starting from `remaining = limit > 0`, no backoff and no
intervening `Update`, a sequence of `Delay` calls never drives `remaining`
negative and exactly `limit` of the calls decrement it (after `k` calls the
counter reads `max 0 (limit − k)`); and any `Delay` call on a limiter whose
window is exhausted (`remaining = 0`, no backoff) returns
`max 0 (reset − now)` and does not decrement. -/
theorem quota_sequence (l m : Limiter) (ts : List Int) (now : Int)
    (hb : l.backoff = none) (hr : l.remaining = l.limit) (hl : 0 < l.limit)
    (hmb : m.backoff = none) (hmr : m.remaining = 0) :
    0 ≤ (delayRun l ts).2.remaining
  ∧ (delayRun l ts).2.remaining = max 0 (l.limit - ts.length)
  ∧ (m.Delay now).1 = max 0 (m.reset - now)
  ∧ (m.Delay now).2.remaining = 0 := by
  have h := delayRun_state l ts hb (by omega)
  have h2 := delay_exhausted m now hmb hmr
  refine ⟨?_, ?_, h2.1, ?_⟩
  · rw [h.1]; omega
  · rw [h.1, hr]
  · rw [h2.2]; exact hmr

/-- Witness for C2 at a concrete limiter and call sequence. -/
theorem quota_sequence_witness :
    0 ≤ (delayRun { limit := 3, remaining := 3, reset := 100 } [0, 10, 20, 30, 40]).2.remaining
  ∧ (delayRun { limit := 3, remaining := 3, reset := 100 } [0, 10, 20, 30, 40]).2.remaining
      = max 0 (3 - (([0, 10, 20, 30, 40] : List Int).length : Int))
  ∧ (({ limit := 3, remaining := 0, reset := 100 } : Limiter).Delay 60).1 = max 0 (100 - 60)
  ∧ (({ limit := 3, remaining := 0, reset := 100 } : Limiter).Delay 60).2.remaining = 0 :=
  quota_sequence { limit := 3, remaining := 3, reset := 100 }
    { limit := 3, remaining := 0, reset := 100 } [0, 10, 20, 30, 40] 60
    rfl rfl (by decide) rfl rfl

/-- Claim C10: with `remaining = 0` and no backoff, every `Delay` call at or
after `reset` returns zero delay and leaves `remaining` at 0: the limiter
never replenishes its own quota at a window boundary, so arbitrarily many
immediate operations are permitted until an external `Update`. -/
theorem no_replenish (l : Limiter) (ts : List Int) (hb : l.backoff = none)
    (hr : l.remaining = 0) (ht : ∀ t ∈ ts, l.reset ≤ t) :
    (delayRun l ts).1 = List.replicate ts.length 0
  ∧ (delayRun l ts).2.remaining = 0
  ∧ (delayRun l ts).2.reset = l.reset
  ∧ (delayRun l ts).2.backoff = none := by
  induction ts generalizing l with
  | nil => exact ⟨rfl, hr, rfl, hb⟩
  | cons t ts ih =>
      have h2 := delay_exhausted l t hb hr
      have hd : (l.Delay t).1 = 0 := by
        rw [h2.1]
        have := ht t (by simp)
        omega
      have ih' := ih (l.Delay t).2 (by rw [h2.2]; exact hb) (by rw [h2.2]; exact hr)
        (fun s hs => by rw [h2.2]; exact ht s (by simp [hs]))
      simp only [delayRun, List.length_cons, List.replicate_succ]
      refine ⟨?_, ih'.2.1, ?_, ih'.2.2.2⟩
      · rw [hd, ih'.1]
      · rw [ih'.2.2.1, h2.2]

/-- Witness for C10 at a concrete exhausted limiter and post-reset times. -/
theorem no_replenish_witness :
    (delayRun { limit := 3, remaining := 0, reset := 50 } [50, 60, 70]).1
      = List.replicate ([50, 60, 70] : List Int).length 0
  ∧ (delayRun { limit := 3, remaining := 0, reset := 50 } [50, 60, 70]).2.remaining = 0
  ∧ (delayRun { limit := 3, remaining := 0, reset := 50 } [50, 60, 70]).2.reset = 50
  ∧ (delayRun { limit := 3, remaining := 0, reset := 50 } [50, 60, 70]).2.backoff = none :=
  no_replenish { limit := 3, remaining := 0, reset := 50 } [50, 60, 70]
    rfl rfl (by decide)

/-- Claim C3 counterexample: at `now` exactly equal to the backoff deadline
(`backoffUntil = 100`, `now = 100`) the code returns zero delay but does not
clear the backoff and does not consume quota — the claim predicted that at
or after the deadline the backoff is cleared and the call falls through to
the quota path. -/
theorem backoff_boundary_counterexample :
    (({ limit := 10, remaining := 5, reset := 1000, backoff := some 100 } : Limiter).Delay 100).1 = 0
  ∧ (({ limit := 10, remaining := 5, reset := 1000, backoff := some 100 } : Limiter).Delay 100).2.backoff
      = some 100
  ∧ (({ limit := 10, remaining := 5, reset := 1000, backoff := some 100 } : Limiter).Delay 100).2.remaining
      = 5 := by
  refine ⟨?_, ?_, ?_⟩ <;> decide

/-- Claim C3 as amended: when `backoffUntil` is set, a call with `now` at or
before the deadline returns `backoffUntil − now` (zero at the boundary) and
leaves the state — including `remaining` and the backoff — untouched; only a
call with `now` strictly after the deadline clears the backoff and falls
through to the normal quota path, consuming quota in the same call. -/
theorem backoff_delay (l : Limiter) (v rel1 rel2 : Int) (hb : l.backoff = some v)
    (h1 : rel1 ≤ v) (h2 : v < rel2) (hrem : 0 < l.remaining) :
    l.Delay rel1 = (v - rel1, l)
  ∧ l.Delay rel2 = ({ l with backoff := none }).Delay rel2
  ∧ (l.Delay rel2).2.backoff = none
  ∧ (l.Delay rel2).2.remaining = l.remaining - 1 := by
  have e1 : l.Delay rel1 = (v - rel1, l) := by
    unfold Limiter.Delay
    rw [hb]
    simp only [if_neg (not_lt.mpr h1)]
  have e2 : l.Delay rel2 = Limiter.delayQuota { l with backoff := none } rel2 l.mode l.limit := by
    unfold Limiter.Delay
    rw [hb]
    simp only [if_pos h2]
  refine ⟨e1, ?_, ?_, ?_⟩
  · rw [e2]; rfl
  · rw [e2, delayQuota_snd]
  · rw [e2, delayQuota_snd]
    simp only
    rw [if_pos hrem]

/-- Witness for the amended C3 at a concrete limiter, one call before the
deadline and one strictly after it. -/
theorem backoff_delay_witness :
    ({ limit := 10, remaining := 5, reset := 1000, backoff := some 100 } : Limiter).Delay 40
      = (100 - 40, { limit := 10, remaining := 5, reset := 1000, backoff := some 100 })
  ∧ ({ limit := 10, remaining := 5, reset := 1000, backoff := some 100 } : Limiter).Delay 101
      = ({ ({ limit := 10, remaining := 5, reset := 1000, backoff := some 100 } : Limiter) with
            backoff := none }).Delay 101
  ∧ (({ limit := 10, remaining := 5, reset := 1000, backoff := some 100 } : Limiter).Delay 101).2.backoff
      = none
  ∧ (({ limit := 10, remaining := 5, reset := 1000, backoff := some 100 } : Limiter).Delay 101).2.remaining
      = 5 - 1 :=
  backoff_delay { limit := 10, remaining := 5, reset := 1000, backoff := some 100 }
    100 40 101 rfl (by decide) (by decide) (by decide)

/-- Claim C8 counterexample: in `Meter` mode with constant remaining (50 of
100) and fixed reset (100), the delay computed at `now = 50` is strictly
smaller than the delay computed at `now = 0` — the per-call delay is not
monotonically non-decreasing as `now` increases toward `reset`. -/
theorem meter_not_monotone_counterexample :
    (({ limit := 100, remaining := 50, reset := 100, mode := Mode.Meter } : Limiter).Delay 50).1
  < (({ limit := 100, remaining := 50, reset := 100, mode := Mode.Meter } : Limiter).Delay 0).1 := by
  have h50 : (({ limit := 100, remaining := 50, reset := 100, mode := Mode.Meter } : Limiter).Delay 50).1 = 1 := by
    rw [delay_of_no_backoff _ _ rfl, delayQuota_fst_pos _ _ _ _ (by decide)]
    norm_num [meterAmount, rclamp, lowLimit, lowThreshold]
  have h0 : (({ limit := 100, remaining := 50, reset := 100, mode := Mode.Meter } : Limiter).Delay 0).1 = 2 := by
    rw [delay_of_no_backoff _ _ rfl, delayQuota_fst_pos _ _ _ _ (by decide)]
    norm_num [meterAmount, rclamp, lowLimit, lowThreshold]
    all_goals decide
  rw [h50, h0]
  norm_num

/-- Claim C8 as amended: in `Meter` mode with no active backoff, for a fixed
limiter state the delay computed by `Delay(now)` is monotonically
non-increasing in `now` — later calls in the window see shorter computed
delays, the reverse of the claimed direction. -/
theorem meter_delay_antitone (l : Limiter) (t1 t2 : Int) (hb : l.backoff = none)
    (_hm : l.mode = Mode.Meter) (h12 : t1 ≤ t2) :
    (l.Delay t2).1 ≤ (l.Delay t1).1 := by
  rw [delay_of_no_backoff l t2 hb, delay_of_no_backoff l t1 hb]
  exact delayQuota_fst_antitone l l.mode l.limit h12

/-- Witness for the amended C8 at a concrete metered limiter. -/
theorem meter_delay_antitone_witness :
    ({ limit := 100, remaining := 50, reset := 100, mode := Mode.Meter } : Limiter).backoff = none
  ∧ ({ limit := 100, remaining := 50, reset := 100, mode := Mode.Meter } : Limiter).mode = Mode.Meter
  ∧ (0 : Int) ≤ 50
  ∧ (({ limit := 100, remaining := 50, reset := 100, mode := Mode.Meter } : Limiter).Delay 50).1
      ≤ (({ limit := 100, remaining := 50, reset := 100, mode := Mode.Meter } : Limiter).Delay 0).1 :=
  ⟨rfl, rfl, by decide,
    meter_delay_antitone { limit := 100, remaining := 50, reset := 100, mode := Mode.Meter }
      0 50 rfl rfl (by decide)⟩

/-- Claim C1 counterexample: at `now = 120` past `reset = 100` (Meter mode,
no backoff, `remaining = 5 > 0` of `limit = 100`) the code clamps
`reset − now` to zero before dividing and returns a zero delay, while the
claim's formula `base = (reset − now) / remaining_before_decrement` yields
`−4`. -/
theorem delay_window_clamp_counterexample :
    (({ limit := 100, remaining := 5, reset := 100, mode := Mode.Meter } : Limiter).Delay 120).1 = 0
  ∧ meterDelaySpec 100 5 100 120 0 0 = -4 := by
  constructor
  · rw [delay_of_no_backoff _ _ rfl, delayQuota_fst_pos _ _ _ _ (by decide)]
    norm_num [meterAmount, rclamp, lowLimit, lowThreshold]
  · norm_num [meterDelaySpec, lowLimit, lowThreshold]
    all_goals decide

/-- Claim C1 as amended: with no backoff, `remaining > 0` and a positive
`limit`, `Delay` in `Burst` mode returns zero, and in `Meter` mode it
returns the specified formula with the window term clamped at zero:
`base = max(0, reset − now) / remaining_before_decrement`, scaled by
`1/target` when a target is configured, adjusted by the low-quota penalty on
`p = remaining/limit` (where the forced delay is the clamped
`max(0, reset − now)`), and finally clamped to `maxDelay` when configured
and exceeded — so a call past the reset yields a zero delay, never a
negative one. -/
theorem delay_formula_clamped (lB lM : Limiter) (nowB nowM : Int)
    (hBb : lB.backoff = none) (hBrem : 0 < lB.remaining) (hBmode : lB.mode = Mode.Burst)
    (hMb : lM.backoff = none) (hMrem : 0 < lM.remaining) (hMmode : lM.mode = Mode.Meter)
    (hMlim : 0 < lM.limit) :
    (lB.Delay nowB).1 = 0
  ∧ (lM.Delay nowM).1
      = meterDelaySpecClamped lM.limit lM.remaining lM.reset nowM lM.target lM.maxMeter := by
  constructor
  · rw [delay_of_no_backoff lB nowB hBb, delayQuota_fst_pos lB nowB _ _ hBrem, hBmode]
    simp
  · rw [delay_of_no_backoff lM nowM hMb, delayQuota_fst_pos lM nowM _ _ hMrem, hMmode, if_pos rfl]
    simp only [meterAmount, meterDelaySpecClamped]
    rw [if_neg (by omega : ¬lM.limit = 0)]

/-- Witness for the amended C1 at a concrete `Burst` limiter and a concrete
`Meter` limiter whose call falls past the window reset, exercising the
clamp. -/
theorem delay_formula_clamped_witness :
    (({ limit := 10, remaining := 5, reset := 100, mode := Mode.Burst } : Limiter).Delay 7).1 = 0
  ∧ (({ limit := 100, remaining := 5, reset := 100, mode := Mode.Meter } : Limiter).Delay 120).1
      = meterDelaySpecClamped 100 5 100 120 0 0 :=
  delay_formula_clamped { limit := 10, remaining := 5, reset := 100, mode := Mode.Burst }
    { limit := 100, remaining := 5, reset := 100, mode := Mode.Meter } 7 120
    rfl (by decide) rfl rfl (by decide) rfl (by decide)

/-- Claim C6 counterexample: for the Go test configuration (window 60s,
6 events, base 0) at `rel` one second into the bucket the code reports
`remaining = 5` (truncation of 5.9), while the claim's formula
`round((1 − elapsed/window) × events) = round(5.9)` demands 6. -/
theorem linear_round_counterexample :
    ((NewLinear 0 (60 * 1000000000) 6).State 1000000000).Remaining = 5
  ∧ round ((1 - (1000000000 : ℚ) / (60 * 1000000000)) * 6) = 6 := by
  constructor
  · have ht : ((1000000000 : Int) - 0).tdiv (60 * 1000000000) = 0 := by decide
    simp only [NewLinear, Linear.State]
    rw [ht]
    norm_num [ratTrunc]
  · norm_num [round_eq]

/-- Claim C6 as amended: `Linear.State(rel)` reports `remaining` as
`(1 − elapsedInBucket/window) × events` truncated toward zero (the Go `int`
conversion), not rounded, for the bucket selected by truncated division of
`rel − base` by the window; `reset` is the end of that bucket; and at a time
exactly on a bucket boundary the remaining estimate equals the full
`events` count. -/
theorem linear_state_trunc (l : Linear) (rel relB : Int) (hw : 0 < l.Window)
    (hdvd : l.Window ∣ (relB - l.base)) :
    (l.State rel).Remaining = linearRemainingSpec l.base l.Window l.Events rel
  ∧ (l.State rel).Reset = l.base + (rel - l.base).tdiv l.Window * l.Window + l.Window
  ∧ (l.State relB).Remaining = l.Events := by
  refine ⟨rfl, rfl, ?_⟩
  obtain ⟨k, hk⟩ := hdvd
  have ht : (relB - l.base).tdiv l.Window = k := by
    rw [hk]
    exact Int.mul_tdiv_cancel_left k (by omega)
  have hc : relB - (l.base + k * l.Window) = 0 := by
    rw [mul_comm]
    omega
  simp only [Linear.State]
  rw [ht, hc]
  simp only [Int.cast_zero, zero_div, sub_zero, one_mul]
  exact ratTrunc_intCast l.Events

/-- Witness for the amended C6 at a concrete evenly-spaced limiter, one
mid-bucket instant and one boundary instant. -/
theorem linear_state_trunc_witness :
    ((NewLinear 0 60 6).State 61).Remaining = linearRemainingSpec 0 60 6 61
  ∧ ((NewLinear 0 60 6).State 61).Reset = 0 + ((61 : Int) - 0).tdiv 60 * 60 + 60
  ∧ ((NewLinear 0 60 6).State 120).Remaining = 6 :=
  linear_state_trunc (NewLinear 0 60 6) 61 120 (by decide) (by decide)

/-- Claim C7 counterexample: for a linear limiter anchored at `base = 5s`
(window 60s, 6 events, slot width 10s), `Next(12s) = 20s`, which is not a
slot boundary after alignment to the configured base: `(20s − 5s) mod 10s ≠
0`.  The quantisation is aligned to the Unix epoch, not to `base`. -/
theorem linear_next_counterexample :
    (NewLinear (5 * 1000000000) (60 * 1000000000) 6).Next (12 * 1000000000) = 20 * 1000000000
  ∧ ((20 * 1000000000 : Int) - 5 * 1000000000) % (10 * 1000000000) ≠ 0 := by
  constructor
  · decide
  · decide

/-- Claim C7 as amended: for non-negative `now` and a slot width `delay`
that is a positive whole number of microseconds, `Next(now)` returns
`floor(now_µs / dm) × dm + dm` rescaled to nanoseconds (`dm = delay/1000`
microseconds), equivalently `floor(now_µs/dm) × delay + delay`; the result
is a slot boundary aligned to the Unix epoch (`next mod delay = 0`
absolutely, with no alignment to the configured base), and it is strictly
greater than `now` (hence greater than `now` minus one slot width). -/
theorem linear_next_slots (l : Linear) (rel : Int) (hd : 0 < l.delay)
    (hq : (1000 : Int) ∣ l.delay) (hr : 0 ≤ rel) :
    l.Next rel = (rel.ediv 1000).ediv (l.delay.ediv 1000) * l.delay + l.delay
  ∧ l.Next rel % l.delay = 0
  ∧ rel < l.Next rel := by
  obtain ⟨c, hc⟩ := hq
  have hcpos : 0 < c := by omega
  have hdm : l.delay.ediv 1000 = c := by
    rw [hc]
    exact Int.mul_ediv_cancel_left c (by norm_num)
  have htd : l.delay.tdiv 1000 = c := by
    rw [Int.tdiv_eq_ediv (by omega) (by norm_num)]
    exact hdm
  have hu : (rel.ediv 1000).tdiv c = (rel.ediv 1000).ediv c :=
    Int.tdiv_eq_ediv (Int.ediv_nonneg hr (by norm_num)) hcpos.le
  have e1 : l.Next rel = ((rel.ediv 1000).ediv c * c + c) * 1000 := by
    unfold Linear.Next
    rw [htd]
    show ((rel.ediv 1000).tdiv c * c + c) * 1000 = _
    rw [hu]
  refine ⟨?_, ?_, ?_⟩
  · rw [e1, hdm, hc]
    ring
  · rw [e1, hc]
    have hx : ((rel.ediv 1000).ediv c * c + c) * 1000
        = ((rel.ediv 1000).ediv c + 1) * (1000 * c) := by ring
    rw [hx]
    exact Int.mul_emod_left _ _
  · rw [e1]
    have h1 : rel < (rel.ediv 1000 + 1) * 1000 :=
      Int.lt_ediv_add_one_mul_self rel (by norm_num)
    have h2 : rel.ediv 1000 < ((rel.ediv 1000).ediv c + 1) * c :=
      Int.lt_ediv_add_one_mul_self _ hcpos
    have h2' : rel.ediv 1000 + 1 ≤ (rel.ediv 1000).ediv c * c + c := by
      have hx : ((rel.ediv 1000).ediv c + 1) * c = (rel.ediv 1000).ediv c * c + c := by ring
      rw [hx] at h2
      linarith
    have h3 : (rel.ediv 1000 + 1) * 1000 ≤ ((rel.ediv 1000).ediv c * c + c) * 1000 :=
      mul_le_mul_of_nonneg_right h2' (by norm_num)
    linarith

/-- Witness for the amended C7 at a concrete linear limiter with a 10000ns
slot width. -/
theorem linear_next_slots_witness :
    (NewLinear 0 60000 6).Next 12345
      = ((12345 : Int).ediv 1000).ediv (((60000 : Int).tdiv 6).ediv 1000) * ((60000 : Int).tdiv 6)
        + (60000 : Int).tdiv 6
  ∧ (NewLinear 0 60000 6).Next 12345 % ((60000 : Int).tdiv 6) = 0
  ∧ (12345 : Int) < (NewLinear 0 60000 6).Next 12345 :=
  linear_next_slots (NewLinear 0 60000 6) 12345 (by decide) (by decide) (by decide)

theorem delay_backoff_active (l : Limiter) (v rel : Int) (hb : l.backoff = some v)
    (h : ¬v < rel) : l.Delay rel = (v - rel, l) := by
  unfold Limiter.Delay
  rw [hb]
  simp only [if_neg h]

/-- Claim C4: for every attribute bag with a parseable retry-after header
(value \"30\" under the seconds interpreter), `update` installs the backoff
deadline `now + 30s`, returns a `RetryError` carrying exactly that deadline,
and leaves limit/remaining/reset untouched (it returns before consulting the
quota headers); a `Delay` call one second later waits 29s regardless of the
remaining quota. -/
theorem retry_after_backoff (l : Headers) (now : Int) (attrs : Attrs) (n : String)
    (hdur : l.dur = Durationer.seconds)
    (hfind : findAttr attrs retryAliases = some (n, "30")) :
    (l.update now attrs).1 = UpdateResult.retryAfter (now + 30 * 1000000000)
  ∧ (l.update now attrs).2.impl.backoff = some (now + 30 * 1000000000)
  ∧ (l.update now attrs).2.impl.limit = l.impl.limit
  ∧ (l.update now attrs).2.impl.remaining = l.impl.remaining
  ∧ (l.update now attrs).2.impl.reset = l.impl.reset
  ∧ ((l.update now attrs).2.impl.Delay (now + 1000000000)).1 = 29 * 1000000000 := by
  have hparse : parseAtoi "30" = some 30 := by decide
  have hupd : l.update now attrs =
      (UpdateResult.retryAfter (now + 30 * 1000000000),
        { l with impl := l.impl.BackoffUntil (now + 30 * 1000000000) }) := by
    simp only [Headers.update, hfind, hparse, hdur, Durationer.duration]
  have hbk : (l.update now attrs).2.impl.backoff = some (now + 30 * 1000000000) := by
    rw [hupd]
    rfl
  refine ⟨by rw [hupd], hbk, by rw [hupd]; rfl, by rw [hupd]; rfl, by rw [hupd]; rfl, ?_⟩
  rw [delay_backoff_active _ _ _ hbk (by omega)]
  show now + 30 * 1000000000 - (now + 1000000000) = 29 * 1000000000
  omega

/-- Witness for C4 at a concrete header limiter and attribute bag. -/
theorem retry_after_backoff_witness :
    (({ impl := { limit := 7, remaining := 3, reset := 42 }, dur := Durationer.seconds } : Headers).update
        0 [("Retry-After", ["30"])]).1 = UpdateResult.retryAfter (0 + 30 * 1000000000)
  ∧ (({ impl := { limit := 7, remaining := 3, reset := 42 }, dur := Durationer.seconds } : Headers).update
        0 [("Retry-After", ["30"])]).2.impl.backoff = some (0 + 30 * 1000000000)
  ∧ (({ impl := { limit := 7, remaining := 3, reset := 42 }, dur := Durationer.seconds } : Headers).update
        0 [("Retry-After", ["30"])]).2.impl.limit = 7
  ∧ (({ impl := { limit := 7, remaining := 3, reset := 42 }, dur := Durationer.seconds } : Headers).update
        0 [("Retry-After", ["30"])]).2.impl.remaining = 3
  ∧ (({ impl := { limit := 7, remaining := 3, reset := 42 }, dur := Durationer.seconds } : Headers).update
        0 [("Retry-After", ["30"])]).2.impl.reset = 42
  ∧ ((({ impl := { limit := 7, remaining := 3, reset := 42 }, dur := Durationer.seconds } : Headers).update
        0 [("Retry-After", ["30"])]).2.impl.Delay (0 + 1000000000)).1 = 29 * 1000000000 :=
  retry_after_backoff
    { impl := { limit := 7, remaining := 3, reset := 42 }, dur := Durationer.seconds }
    0 [("Retry-After", ["30"])] "Retry-After" rfl (by decide)

/-- Claim C5 counterexample: the attribute bag holding only
`X-Ratelimit-Limit: abc` has its remaining header group absent, yet
`update` returns the parse error naming `X-RateLimit-Limit`, not one of the
missing-headers errors — the claim's \"any group absent ⇒ missing-headers
error\" fails because the limit group is checked (and its value parsed)
first. -/
theorem header_update_order_counterexample :
    findAttr [("X-Ratelimit-Limit", ["abc"])] remainingAliases = none
  ∧ (({ impl := { limit := 7, remaining := 3, reset := 42 }, dur := Durationer.seconds } : Headers).update
        0 [("X-Ratelimit-Limit", ["abc"])]).1 = UpdateResult.invalidHeader "X-RateLimit-Limit" "abc"
  ∧ (({ impl := { limit := 7, remaining := 3, reset := 42 }, dur := Durationer.seconds } : Headers).update
        0 [("X-Ratelimit-Limit", ["abc"])]).1 ≠ UpdateResult.missingLimit
  ∧ (({ impl := { limit := 7, remaining := 3, reset := 42 }, dur := Durationer.seconds } : Headers).update
        0 [("X-Ratelimit-Limit", ["abc"])]).1 ≠ UpdateResult.missingRemaining
  ∧ (({ impl := { limit := 7, remaining := 3, reset := 42 }, dur := Durationer.seconds } : Headers).update
        0 [("X-Ratelimit-Limit", ["abc"])]).1 ≠ UpdateResult.missingReset := by
  refine ⟨by decide, by decide, by decide, by decide, by decide⟩

/-- Claim C5 as amended: `update` checks the groups in order — limit,
remaining, reset — after the retry-after short circuit; for the first group that
fails, absence yields the corresponding missing-headers error and a present
non-numeric value yields a parse error naming that header (so a bag with an
absent later group can still produce a parse error for an earlier group);
every failing outcome leaves the state exactly as it was, and only a call
in which all three values parse overwrites limit/remaining/reset. -/
theorem header_update_priority (l : Headers) (now : Int)
    (a1 : Attrs) (h1r : findAttr a1 retryAliases = none)
    (h1 : findAttr a1 limitAliases = none)
    (a2 : Attrs) (n2 v2 : String) (h2r : findAttr a2 retryAliases = none)
    (h2 : findAttr a2 limitAliases = some (n2, v2)) (h2p : parseAtoi v2 = none)
    (a3 : Attrs) (n3 v3 : String) (x3 : Int) (h3r : findAttr a3 retryAliases = none)
    (h3 : findAttr a3 limitAliases = some (n3, v3)) (h3p : parseAtoi v3 = some x3)
    (h3m : findAttr a3 remainingAliases = none)
    (a4 : Attrs) (n4 v4 m4 w4 : String) (x4 : Int) (h4r : findAttr a4 retryAliases = none)
    (h4 : findAttr a4 limitAliases = some (n4, v4)) (h4p : parseAtoi v4 = some x4)
    (h4m : findAttr a4 remainingAliases = some (m4, w4)) (h4q : parseAtoi w4 = none)
    (a5 : Attrs) (n5 v5 m5 w5 : String) (x5 y5 : Int) (h5r : findAttr a5 retryAliases = none)
    (h5 : findAttr a5 limitAliases = some (n5, v5)) (h5p : parseAtoi v5 = some x5)
    (h5m : findAttr a5 remainingAliases = some (m5, w5)) (h5q : parseAtoi w5 = some y5)
    (h5s : findAttr a5 resetAliases = none)
    (a6 : Attrs) (n6 v6 m6 w6 s6 u6 : String) (x6 y6 : Int) (h6r : findAttr a6 retryAliases = none)
    (h6 : findAttr a6 limitAliases = some (n6, v6)) (h6p : parseAtoi v6 = some x6)
    (h6m : findAttr a6 remainingAliases = some (m6, w6)) (h6q : parseAtoi w6 = some y6)
    (h6s : findAttr a6 resetAliases = some (s6, u6)) (h6t : parseAtoi u6 = none)
    (a7 : Attrs) (n7 v7 m7 w7 s7 u7 : String) (x7 y7 z7 : Int) (h7r : findAttr a7 retryAliases = none)
    (h7 : findAttr a7 limitAliases = some (n7, v7)) (h7p : parseAtoi v7 = some x7)
    (h7m : findAttr a7 remainingAliases = some (m7, w7)) (h7q : parseAtoi w7 = some y7)
    (h7s : findAttr a7 resetAliases = some (s7, u7)) (h7t : parseAtoi u7 = some z7) :
    ((l.update now a1).1 = UpdateResult.missingLimit ∧ (l.update now a1).2 = l)
  ∧ ((l.update now a2).1 = UpdateResult.invalidHeader n2 v2 ∧ (l.update now a2).2 = l)
  ∧ ((l.update now a3).1 = UpdateResult.missingRemaining ∧ (l.update now a3).2 = l)
  ∧ ((l.update now a4).1 = UpdateResult.invalidHeader m4 w4 ∧ (l.update now a4).2 = l)
  ∧ ((l.update now a5).1 = UpdateResult.missingReset ∧ (l.update now a5).2 = l)
  ∧ ((l.update now a6).1 = UpdateResult.invalidHeader s6 u6 ∧ (l.update now a6).2 = l)
  ∧ ((l.update now a7).1 = UpdateResult.ok
      ∧ (l.update now a7).2.impl = l.impl.Update x7 y7 (l.dur.timeOf z7)) := by
  have u1 : l.update now a1 = (UpdateResult.missingLimit, l) := by
    simp only [Headers.update, h1r, h1]
  have u2 : l.update now a2 = (UpdateResult.invalidHeader n2 v2, l) := by
    simp only [Headers.update, h2r, h2, h2p]
  have u3 : l.update now a3 = (UpdateResult.missingRemaining, l) := by
    simp only [Headers.update, h3r, h3, h3p, h3m]
  have u4 : l.update now a4 = (UpdateResult.invalidHeader m4 w4, l) := by
    simp only [Headers.update, h4r, h4, h4p, h4m, h4q]
  have u5 : l.update now a5 = (UpdateResult.missingReset, l) := by
    simp only [Headers.update, h5r, h5, h5p, h5m, h5q, h5s]
  have u6' : l.update now a6 = (UpdateResult.invalidHeader s6 u6, l) := by
    simp only [Headers.update, h6r, h6, h6p, h6m, h6q, h6s, h6t]
  have u7 : l.update now a7 =
      (UpdateResult.ok, { l with impl := l.impl.Update x7 y7 (l.dur.timeOf z7) }) := by
    simp only [Headers.update, h7r, h7, h7p, h7m, h7q, h7s, h7t]
  exact ⟨⟨by rw [u1], by rw [u1]⟩, ⟨by rw [u2], by rw [u2]⟩, ⟨by rw [u3], by rw [u3]⟩,
    ⟨by rw [u4], by rw [u4]⟩, ⟨by rw [u5], by rw [u5]⟩, ⟨by rw [u6'], by rw [u6']⟩,
    ⟨by rw [u7], by rw [u7]⟩⟩

/-- Witness for the amended C5: seven concrete attribute bags, one per
outcome of the ordered header checks. -/
theorem header_update_priority_witness :
    ((({ impl := { limit := 7, remaining := 3, reset := 42 }, dur := Durationer.seconds } : Headers).update
          0 ([] : Attrs)).1 = UpdateResult.missingLimit
      ∧ (({ impl := { limit := 7, remaining := 3, reset := 42 }, dur := Durationer.seconds } : Headers).update
          0 ([] : Attrs)).2
        = { impl := { limit := 7, remaining := 3, reset := 42 }, dur := Durationer.seconds })
  ∧ ((({ impl := { limit := 7, remaining := 3, reset := 42 }, dur := Durationer.seconds } : Headers).update
          0 [("X-Ratelimit-Limit", ["abc"])]).1 = UpdateResult.invalidHeader "X-RateLimit-Limit" "abc"
      ∧ (({ impl := { limit := 7, remaining := 3, reset := 42 }, dur := Durationer.seconds } : Headers).update
          0 [("X-Ratelimit-Limit", ["abc"])]).2
        = { impl := { limit := 7, remaining := 3, reset := 42 }, dur := Durationer.seconds })
  ∧ ((({ impl := { limit := 7, remaining := 3, reset := 42 }, dur := Durationer.seconds } : Headers).update
          0 [("X-Ratelimit-Limit", ["10"])]).1 = UpdateResult.missingRemaining
      ∧ (({ impl := { limit := 7, remaining := 3, reset := 42 }, dur := Durationer.seconds } : Headers).update
          0 [("X-Ratelimit-Limit", ["10"])]).2
        = { impl := { limit := 7, remaining := 3, reset := 42 }, dur := Durationer.seconds })
  ∧ ((({ impl := { limit := 7, remaining := 3, reset := 42 }, dur := Durationer.seconds } : Headers).update
          0 [("X-Ratelimit-Limit", ["10"]), ("X-Ratelimit-Remaining", ["zz"])]).1
        = UpdateResult.invalidHeader "X-RateLimit-Remaining" "zz"
      ∧ (({ impl := { limit := 7, remaining := 3, reset := 42 }, dur := Durationer.seconds } : Headers).update
          0 [("X-Ratelimit-Limit", ["10"]), ("X-Ratelimit-Remaining", ["zz"])]).2
        = { impl := { limit := 7, remaining := 3, reset := 42 }, dur := Durationer.seconds })
  ∧ ((({ impl := { limit := 7, remaining := 3, reset := 42 }, dur := Durationer.seconds } : Headers).update
          0 [("X-Ratelimit-Limit", ["10"]), ("X-Ratelimit-Remaining", ["4"])]).1
        = UpdateResult.missingReset
      ∧ (({ impl := { limit := 7, remaining := 3, reset := 42 }, dur := Durationer.seconds } : Headers).update
          0 [("X-Ratelimit-Limit", ["10"]), ("X-Ratelimit-Remaining", ["4"])]).2
        = { impl := { limit := 7, remaining := 3, reset := 42 }, dur := Durationer.seconds })
  ∧ ((({ impl := { limit := 7, remaining := 3, reset := 42 }, dur := Durationer.seconds } : Headers).update
          0 [("X-Ratelimit-Limit", ["10"]), ("X-Ratelimit-Remaining", ["4"]), ("X-Ratelimit-Reset", ["oops"])]).1
        = UpdateResult.invalidHeader "X-RateLimit-Reset" "oops"
      ∧ (({ impl := { limit := 7, remaining := 3, reset := 42 }, dur := Durationer.seconds } : Headers).update
          0 [("X-Ratelimit-Limit", ["10"]), ("X-Ratelimit-Remaining", ["4"]), ("X-Ratelimit-Reset", ["oops"])]).2
        = { impl := { limit := 7, remaining := 3, reset := 42 }, dur := Durationer.seconds })
  ∧ ((({ impl := { limit := 7, remaining := 3, reset := 42 }, dur := Durationer.seconds } : Headers).update
          0 [("X-Ratelimit-Limit", ["10"]), ("X-Ratelimit-Remaining", ["4"]), ("X-Ratelimit-Reset", ["99"])]).1
        = UpdateResult.ok
      ∧ (({ impl := { limit := 7, remaining := 3, reset := 42 }, dur := Durationer.seconds } : Headers).update
          0 [("X-Ratelimit-Limit", ["10"]), ("X-Ratelimit-Remaining", ["4"]), ("X-Ratelimit-Reset", ["99"])]).2.impl
        = Limiter.Update { limit := 7, remaining := 3, reset := 42 } 10 4
            (Durationer.timeOf Durationer.seconds 99)) :=
  header_update_priority
    { impl := { limit := 7, remaining := 3, reset := 42 }, dur := Durationer.seconds } 0
    ([] : Attrs) (by decide) (by decide)
    [("X-Ratelimit-Limit", ["abc"])] "X-RateLimit-Limit" "abc" (by decide) (by decide) (by decide)
    [("X-Ratelimit-Limit", ["10"])] "X-RateLimit-Limit" "10" 10 (by decide) (by decide) (by decide)
      (by decide)
    [("X-Ratelimit-Limit", ["10"]), ("X-Ratelimit-Remaining", ["zz"])]
      "X-RateLimit-Limit" "10" "X-RateLimit-Remaining" "zz" 10 (by decide) (by decide) (by decide)
      (by decide) (by decide)
    [("X-Ratelimit-Limit", ["10"]), ("X-Ratelimit-Remaining", ["4"])]
      "X-RateLimit-Limit" "10" "X-RateLimit-Remaining" "4" 10 4 (by decide) (by decide) (by decide)
      (by decide) (by decide) (by decide)
    [("X-Ratelimit-Limit", ["10"]), ("X-Ratelimit-Remaining", ["4"]), ("X-Ratelimit-Reset", ["oops"])]
      "X-RateLimit-Limit" "10" "X-RateLimit-Remaining" "4" "X-RateLimit-Reset" "oops" 10 4
      (by decide) (by decide) (by decide) (by decide) (by decide) (by decide) (by decide)
    [("X-Ratelimit-Limit", ["10"]), ("X-Ratelimit-Remaining", ["4"]), ("X-Ratelimit-Reset", ["99"])]
      "X-RateLimit-Limit" "10" "X-RateLimit-Remaining" "4" "X-RateLimit-Reset" "99" 10 4 99
      (by decide) (by decide) (by decide) (by decide) (by decide) (by decide) (by decide)

end RateLimit
